import Mathlib

/-!
Verification of the vaultsandbox client library (node implementation).

Shallow embedding of the core subsystems:
* the byte/string codec (`toBase64Url`, `fromBase64Url`, `concatBuffers`),
* the signature verifier (`buildAlgsCiphersuite`, `buildTranscript`,
  `verifySignature`),
* key derivation (`deriveKey`) and the decryption engine (`decrypt`),
* the polling delivery strategy's wait loop (backoff arithmetic and
  control flow),
* the SSE delivery strategy's subscription registry and connection
  state machine.

Bytes are modelled as `Nat` values (with `< 256` hypotheses where byte
identity matters), byte arrays as `List Nat`, and JS numeric arithmetic in
the polling loop as exact rational arithmetic (all constants involved are
exactly representable binary floats, so ℚ agrees with the source for the
concrete scenarios proved here).  External cryptographic primitives
(ML-DSA verify, ML-KEM decapsulate, SHA-256, HKDF, AES-GCM) are oracle
parameters: the theorems hold for every implementation of those
primitives.
-/

namespace VaultSandbox

/-! ## Codec (crypto/utils): base64url encoding and decoding -/

/-- The RFC 4648 base64 alphabet used by `Buffer`'s base64 codec. -/
def base64Chars : List Char :=
  ['A', 'B', 'C', 'D', 'E', 'F', 'G', 'H', 'I', 'J', 'K', 'L', 'M',
   'N', 'O', 'P', 'Q', 'R', 'S', 'T', 'U', 'V', 'W', 'X', 'Y', 'Z',
   'a', 'b', 'c', 'd', 'e', 'f', 'g', 'h', 'i', 'j', 'k', 'l', 'm',
   'n', 'o', 'p', 'q', 'r', 's', 't', 'u', 'v', 'w', 'x', 'y', 'z',
   '0', '1', '2', '3', '4', '5', '6', '7', '8', '9', '+', '/']

/-- Character for a 6-bit group. -/
def sextetChar (n : Nat) : Char := base64Chars.getD n 'A'

/-- Six-bit value of a base64 alphabet character (its index in the alphabet). -/
def sextetVal (c : Char) : Nat := base64Chars.indexOf c

/-- Standard base64 encoding of a byte list, three bytes at a time, with
trailing `=` padding.  Models `Buffer.from(buffer).toString('base64')`. -/
def base64EncodeChunks : List Nat → List Char
  | b0 :: b1 :: b2 :: rest =>
      sextetChar (b0 / 4) ::
      sextetChar (b0 % 4 * 16 + b1 / 16) ::
      sextetChar (b1 % 16 * 4 + b2 / 64) ::
      sextetChar (b2 % 64) ::
      base64EncodeChunks rest
  | [b0, b1] =>
      [sextetChar (b0 / 4), sextetChar (b0 % 4 * 16 + b1 / 16),
       sextetChar (b1 % 16 * 4), '=']
  | [b0] =>
      [sextetChar (b0 / 4), sextetChar (b0 % 4 * 16), '=', '=']
  | [] => []

/-- Standard base64 decoding of canonical base64 text, four characters at a
time, honouring trailing `=` padding.  Models `Buffer.from(s, 'base64')` on
the canonical inputs produced by this library's own encoder. -/
def base64DecodeChunks : List Char → List Nat
  | c0 :: c1 :: c2 :: c3 :: rest =>
      if rest = [] ∧ c2 = '=' ∧ c3 = '=' then
        [sextetVal c0 * 4 + sextetVal c1 / 16]
      else if rest = [] ∧ c3 = '=' then
        [sextetVal c0 * 4 + sextetVal c1 / 16,
         sextetVal c1 % 16 * 16 + sextetVal c2 / 4]
      else
        (sextetVal c0 * 4 + sextetVal c1 / 16) ::
        (sextetVal c1 % 16 * 16 + sextetVal c2 / 4) ::
        (sextetVal c2 % 4 * 64 + sextetVal c3) ::
        base64DecodeChunks rest
  | _ => []

/-- Function `toBase64` from crypto/utils: standard base64 of a byte array. -/
def toBase64 (bytes : List Nat) : String := String.mk (base64EncodeChunks bytes)

/-- Function `fromBase64` from crypto/utils: decode standard base64 text. -/
def fromBase64 (s : String) : List Nat := base64DecodeChunks s.data

/-- Models `.replace(/\+/g, '-')` applied character-wise. -/
def plusToDash (c : Char) : Char := if c = '+' then '-' else c

/-- Models `.replace(/\//g, '_')` applied character-wise. -/
def slashToUnderscore (c : Char) : Char := if c = '/' then '_' else c

/-- Models the dash-to-plus replacement of `fromBase64Url` applied
character-wise. -/
def dashToPlus (c : Char) : Char := if c = '-' then '+' else c

/-- Models `.replace(/_/g, '\x2f')` applied character-wise. -/
def underscoreToSlash (c : Char) : Char := if c = '_' then '/' else c

/-- Function `toBase64Url` from crypto/utils: standard base64, then `+` → `-`,
`/` → `_`, and all `=` padding stripped. -/
def toBase64Url (bytes : List Nat) : String :=
  String.mk
    ((((toBase64 bytes).data.map plusToDash).map slashToUnderscore).filter
      (fun c => c ≠ '='))

/-- Re-adds `=` padding so the length is a multiple of four, as in
`fromBase64Url`'s `if (pad) base64 += '='.repeat(4 - pad)`. -/
def padBase64 (cs : List Char) : List Char :=
  if cs.length % 4 = 0 then cs else cs ++ List.replicate (4 - cs.length % 4) '='

/-- Function `fromBase64Url` from crypto/utils: `-` → `+`, `_` → `/`, re-pad with
`=`, then standard base64 decode. -/
def fromBase64Url (s : String) : List Nat :=
  fromBase64 (String.mk (padBase64 ((s.data.map dashToPlus).map underscoreToSlash)))

/-- Byte list of a base64url string (decode composed over the model). -/
def fromBase64UrlBytes (s : String) : List Nat := fromBase64Url s

/-! ## Crypto data model (types/index, crypto/constants) -/

/-- The `algs` ciphersuite descriptor of an encrypted payload. -/
structure AlgorithmSuite where
  kem : String
  sig : String
  aead : String
  kdf : String

/-- The wire shape of an encrypted payload (`EncryptedData` in
types/index): all byte fields are base64url strings. -/
structure EncryptedData where
  v : Nat
  ct_kem : String
  nonce : String
  aad : String
  ciphertext : String
  sig : String
  server_sig_pk : String
  algs : AlgorithmSuite

/-- A recipient keypair (`Keypair` in types/index). -/
structure Keypair where
  publicKey : List Nat
  secretKey : List Nat
  publicKeyB64 : String

/-- Constant `HKDF_CONTEXT` from crypto/constants. -/
def HKDF_CONTEXT : String := "vaultsandbox:email:v1"

/-- UTF-8 bytes of a single code point, as `TextEncoder().encode` emits. -/
def utf8EncodeChar (n : Nat) : List Nat :=
  if n < 128 then [n]
  else if n < 2048 then [192 + n / 64, 128 + n % 64]
  else if n < 65536 then [224 + n / 4096, 128 + n / 64 % 64, 128 + n % 64]
  else [240 + n / 262144, 128 + n / 4096 % 64, 128 + n / 64 % 64, 128 + n % 64]

/-- Models `new TextEncoder().encode(s)`: the UTF-8 bytes of a string. -/
def utf8Bytes (s : String) : List Nat :=
  s.data.foldr (fun c acc => utf8EncodeChar c.toNat ++ acc) []

/-- Function `concatBuffers` from crypto/utils: allocates the total length and
copies each buffer at its running offset, i.e. list concatenation. -/
def concatBuffers (bufs : List (List Nat)) : List Nat :=
  bufs.foldr (fun b acc => b ++ acc) []

/-! ## Signature verifier (crypto/signature) -/

/-- Function `buildAlgsCiphersuite`: the template string
with `:` separators between the four algorithm names. -/
def buildAlgsCiphersuite (algs : AlgorithmSuite) : String :=
  algs.kem ++ ":" ++ algs.sig ++ ":" ++ algs.aead ++ ":" ++ algs.kdf

/-- Function `buildTranscript` from crypto/signature.  `new Uint8Array([version])`
stores `version mod 256`. -/
def buildTranscript (version : Nat) (algsCiphersuite : String)
    (ctKem nonce aad ciphertext serverSigPk : List Nat) (context : String) : List Nat :=
  concatBuffers [[version % 256], utf8Bytes algsCiphersuite, utf8Bytes context,
    ctKem, nonce, aad, ciphertext, serverSigPk]

/-- The two failure modes of the decryption subsystem
(`SignatureVerificationError` and `DecryptionError` in types/index). -/
inductive CryptoError where
  | signatureInvalid
  | decryptionFailed
deriving DecidableEq

/-- Function `verifySignature` from crypto/signature, parameterized by the external
`ml_dsa65.verify` primitive (which may throw, modelled as `Except`).  The
base64url decodes cannot throw in the node codec; a `false` verify result
or a primitive exception is normalized to the single
`SignatureVerificationError` by the catch block.  `ensureOwnBuffer` is the
identity on byte values and is omitted. -/
def verifySignature (mldsaVerify : List Nat → List Nat → List Nat → Except String Bool)
    (e : EncryptedData) : Except CryptoError Bool :=
  let signature := fromBase64UrlBytes e.sig
  let ctKem := fromBase64UrlBytes e.ct_kem
  let nonceBytes := fromBase64UrlBytes e.nonce
  let aadBytes := fromBase64UrlBytes e.aad
  let ciphertextBytes := fromBase64UrlBytes e.ciphertext
  let serverSigPk := fromBase64UrlBytes e.server_sig_pk
  let algsCiphersuite := buildAlgsCiphersuite e.algs
  let transcript := buildTranscript e.v algsCiphersuite ctKem nonceBytes aadBytes
    ciphertextBytes serverSigPk HKDF_CONTEXT
  match mldsaVerify signature transcript serverSigPk with
  | .ok true => .ok true
  | .ok false => .error .signatureInvalid
  | .error _ => .error .signatureInvalid

/-- The transcript as claim C2 words it: the ordered concatenation of one
version byte, the `"<kem>:<sig>:<aead>:<kdf>"` ciphersuite string bytes,
the fixed context-string bytes, the KEM ciphertext, the nonce, the
additional-data bytes, the main ciphertext, and the server signing-key
bytes.  Stated from the spec's words, to be compared with
`buildTranscript` as used by `verifySignature`. -/
def specTranscript (e : EncryptedData) : List Nat :=
  [e.v % 256] ++
  utf8Bytes (e.algs.kem ++ ":" ++ e.algs.sig ++ ":" ++ e.algs.aead ++ ":" ++ e.algs.kdf) ++
  utf8Bytes HKDF_CONTEXT ++
  fromBase64UrlBytes e.ct_kem ++
  fromBase64UrlBytes e.nonce ++
  fromBase64UrlBytes e.aad ++
  fromBase64UrlBytes e.ciphertext ++
  fromBase64UrlBytes e.server_sig_pk

/-! ## Key derivation (crypto/keypair) -/

/-- The 4-byte big-endian length prefix written by
`new DataView(aadLength.buffer).setUint32(0, aad.length, false)`. -/
def toBytesBE32 (n : Nat) : List Nat :=
  [n % 2 ^ 32 / 2 ^ 24, n % 2 ^ 24 / 2 ^ 16, n % 2 ^ 16 / 2 ^ 8, n % 2 ^ 8]

/-- Function `deriveKey` from crypto/keypair, parameterized by the external SHA-256
digest and the WebCrypto HKDF-SHA-512 `deriveBits` primitive (whose last
argument is the requested number of bits).  `ensureOwnBuffer` is the
identity on byte values and is omitted. -/
def deriveKey (sha256 : List Nat → List Nat)
    (hkdfSha512 : List Nat → List Nat → List Nat → Nat → List Nat)
    (ikm : List Nat) (context : String) (aad : List Nat) (ctKem : List Nat) : List Nat :=
  let contextBytes := utf8Bytes context
  let salt := sha256 ctKem
  let aadLength := toBytesBE32 aad.length
  let info := concatBuffers [contextBytes, aadLength, aad]
  hkdfSha512 ikm salt info 256

/-! ## Decryption engine (crypto/decrypt) -/

/-- The primitive invocations `decrypt` can make, in the order recorded on
its call trace. -/
inductive PrimCall where
  | verifyCall
  | decapCall
  | deriveCall
  | aeadCall
deriving DecidableEq

/-- The external primitives `decrypt` depends on.  `mlkemDecapsulate` and
`aesGcmDecrypt` may throw (any such exception is turned into
`DecryptionError` by the catch block); `aesGcmDecrypt` takes key, nonce
(iv), additional data and ciphertext, with the 128-bit tag check inside. -/
structure CryptoPrims where
  mldsaVerify : List Nat → List Nat → List Nat → Except String Bool
  mlkemDecapsulate : List Nat → List Nat → Except String (List Nat)
  sha256 : List Nat → List Nat
  hkdfSha512 : List Nat → List Nat → List Nat → Nat → List Nat
  aesGcmDecrypt : List Nat → List Nat → List Nat → List Nat → Except String (List Nat)

/-- Function `decrypt` from crypto/decrypt, instrumented with the ordered list of
primitive invocations it performs: signature verification first, then KEM
decapsulation, key derivation and AES-GCM decryption.  A
`SignatureVerificationError` is re-thrown as-is; any other failure becomes
`DecryptionError`. -/
def decrypt (P : CryptoPrims) (e : EncryptedData) (kp : Keypair) :
    Except CryptoError (List Nat) × List PrimCall :=
  match verifySignature P.mldsaVerify e with
  | .error er => (.error er, [.verifyCall])
  | .ok _ =>
    match P.mlkemDecapsulate (fromBase64UrlBytes e.ct_kem) kp.secretKey with
    | .error _ => (.error .decryptionFailed, [.verifyCall, .decapCall])
    | .ok sharedSecret =>
      match P.aesGcmDecrypt
          (deriveKey P.sha256 P.hkdfSha512 sharedSecret HKDF_CONTEXT
            (fromBase64UrlBytes e.aad) (fromBase64UrlBytes e.ct_kem))
          (fromBase64UrlBytes e.nonce) (fromBase64UrlBytes e.aad)
          (fromBase64UrlBytes e.ciphertext) with
      | .ok plaintext => (.ok plaintext, [.verifyCall, .decapCall, .deriveCall, .aeadCall])
      | .error _ => (.error .decryptionFailed, [.verifyCall, .decapCall, .deriveCall, .aeadCall])

/-! ## Polling strategy (strategies/polling-strategy)

JS numbers are modelled as exact rationals: every constant involved
(2000, 1.5, 30000, 0.3 and their products up to the clamp) is an exactly
representable binary float, so the rational arithmetic agrees with the
source's float arithmetic on the scenarios proved here. -/

/-- The strategy configuration (`PollingConfig`), with
`initialInterval` standing for the effective per-wait poll interval
(`options.pollInterval ?? this.initialInterval`). -/
structure PollingConfig where
  initialInterval : ℚ
  maxBackoff : ℚ
  backoffMultiplier : ℚ
  jitterFactor : ℚ

/-- The constructor defaults: 2000 ms, 30000 ms, 1.5, 0.3. -/
def defaultPollingConfig : PollingConfig := ⟨2000, 30000, 3 / 2, 3 / 10⟩

/-- The loop-carried state of `waitForEmail`: `lastHash` and
`currentBackoff`. -/
structure PollState where
  lastHash : Option String
  currentBackoff : ℚ

/-- One iteration of `PollingStrategy.waitForEmail`'s loop on the path
that does not return a matching email: the digest compare and backoff
reset, the jittered sleep `min(min(currentBackoff + jitter, maxBackoff),
remainingTime)` with `jitter = rand * jitterFactor * currentBackoff`, and
the post-sleep backoff increase (whose guard compares the fetched hash
with the already-updated `lastHash`).  `rand` models `Math.random()` and
`remaining` the remaining time before the timeout.  Returns the sleep
duration and the next state. -/
def pollTick (cfg : PollingConfig) (st : PollState) (syncHash : String)
    (rand remaining : ℚ) : ℚ × PollState :=
  let changed := st.lastHash = none ∨ st.lastHash ≠ some syncHash
  let lastHash2 := if changed then some syncHash else st.lastHash
  let backoff := if changed then cfg.initialInterval else st.currentBackoff
  let jitter := rand * cfg.jitterFactor * backoff
  let desiredWaitTime := min (backoff + jitter) cfg.maxBackoff
  let waitTime := min desiredWaitTime remaining
  let backoff2 :=
    if some syncHash = lastHash2 then min (backoff * cfg.backoffMultiplier) cfg.maxBackoff
    else backoff
  (waitTime, ⟨lastHash2, backoff2⟩)

/-! ## Polling wait loop control flow -/

/-- What one `getSyncStatus` fetch (plus, on a change, the follow-up
`listEmails` + filter evaluation) observes in an iteration of
`PollingStrategy.waitForEmail`: either a snapshot with its digest, item
count, and whether a matching email is among the fetched items, or a
404-style failure (`statusCode === 404`). -/
inductive PollObs where
  | sync (hash : String) (count : Nat) (matchFound : Bool)
  | gone

/-- The per-iteration environment of the wait loop: the elapsed time at
the loop guard, the `Math.random()` draw, the remaining time before the
timeout, and the fetch observation. -/
structure PollInput where
  elapsed : ℚ
  rand : ℚ
  remaining : ℚ
  obs : PollObs

/-- Outcome of `PollingStrategy.waitForEmail`: a matching email, a
`TimeoutError`, or an `InboxNotFoundError` (the spec's `ResourceNotFound`). -/
inductive PollResult where
  | matched
  | timedOut
  | inboxNotFound
deriving DecidableEq

/-- The `while (Date.now() - startTime < timeout)` loop of
`PollingStrategy.waitForEmail`, driven by a list of per-iteration inputs,
returning the outcome together with the number of fetch iterations
performed.  A 404 observation rethrows `InboxNotFoundError` out of the
loop at once; a change tick with a positive count and a matching email
returns it; otherwise the iteration sleeps via `pollTick` and continues.
An exhausted input list models the guard (or the mid-loop
`remainingTime <= 0` check) ending the wait with `TimeoutError`. -/
def pollingWaitAux (cfg : PollingConfig) (timeout : ℚ) :
    PollState → List PollInput → PollResult × Nat
  | _, [] => (.timedOut, 0)
  | st, i :: rest =>
    if i.elapsed < timeout then
      match i.obs with
      | .gone => (.inboxNotFound, 1)
      | .sync h c found =>
        if (st.lastHash = none ∨ st.lastHash ≠ some h) ∧ 0 < c ∧ found then (.matched, 1)
        else
          let next := pollingWaitAux cfg timeout (pollTick cfg st h i.rand i.remaining).2 rest
          (next.1, next.2 + 1)
    else (.timedOut, 0)

/-- Entry point `PollingStrategy.waitForEmail` from its initial state
(`lastHash = null`, `currentBackoff = pollInterval`). -/
def pollingWaitForEmail (cfg : PollingConfig) (timeout : ℚ) (inputs : List PollInput) :
    PollResult × Nat :=
  pollingWaitAux cfg timeout ⟨none, cfg.initialInterval⟩ inputs

/-! ## SSE strategy (strategies/sse-strategy): subscription registry and
connection state machine -/

/-- One registry entry (`InboxSubscription`): the inbox routing hash and
the registered callbacks in insertion order (a JS `Set` of function
references, modelled by identifier; `Set` iteration order is insertion
order and adding a present element is a no-op). -/
structure InboxSubscription where
  inboxHash : String
  callbacks : List Nat
deriving DecidableEq

/-- The mutable state of an `SSEStrategy` instance: the subscription
registry keyed by email address in insertion order, the connection
(`some hashes` models an open `EventSource` created for exactly that
routing-hash list, `none` models no `EventSource`), the reconnection
counter, and the closing flag. -/
structure SSEState where
  subscriptions : List (String × InboxSubscription)
  connection : Option (List String)
  reconnectAttempts : Nat
  isClosing : Bool
deriving DecidableEq

/-- Registry lookup by email address (`this.subscriptions.get`). -/
def getSub (subs : List (String × InboxSubscription)) (email : String) :
    Option InboxSubscription :=
  (subs.find? (fun p => p.1 = email)).map Prod.snd

/-- The routing-hash list `connect` derives from the registry: every
subscription's `inboxHash`, with empty hashes filtered out. -/
def connectHashes (subs : List (String × InboxSubscription)) : List String :=
  (subs.map (fun p => p.2.inboxHash)).filter (fun h => h ≠ "")

/-- Method `SSEStrategy.connect`: a no-op while closing, with an empty registry,
or with no usable routing hashes; otherwise it opens the `EventSource`
parameterized by the current routing-hash list. -/
def sseConnect (st : SSEState) : SSEState :=
  if st.isClosing then st
  else if st.subscriptions = [] then st
  else if connectHashes st.subscriptions = [] then st
  else { st with connection := some (connectHashes st.subscriptions) }

/-- Method `SSEStrategy.disconnect`: clears the reconnect timer and closes the
`EventSource`. -/
def sseDisconnect (st : SSEState) : SSEState := { st with connection := none }

/-- Method `SSEStrategy.reconnect`: disconnect followed by connect. -/
def sseReconnect (st : SSEState) : SSEState := sseConnect (sseDisconnect st)

/-- Method `SSEStrategy.subscribe`: create or extend the registry entry for the
email address, then connect if there is no (or a closed) `EventSource`,
otherwise reconnect with the updated inbox list.  Returns the new state
and the subscription handle (the pair the returned `unsubscribe` closure
captures). -/
def sseSubscribe (st : SSEState) (email hash : String) (cb : Nat) :
    SSEState × (String × Nat) :=
  let subs :=
    match getSub st.subscriptions email with
    | none => st.subscriptions ++ [(email, ⟨hash, [cb]⟩)]
    | some _ =>
      st.subscriptions.map (fun p =>
        if p.1 = email then
          (p.1, ⟨p.2.inboxHash, if cb ∈ p.2.callbacks then p.2.callbacks else p.2.callbacks ++ [cb]⟩)
        else p)
  let st1 := { st with subscriptions := subs }
  let st2 := if st1.connection = none then sseConnect st1 else sseReconnect st1
  (st2, (email, cb))

/-- The `unsubscribe` closure returned by `SSEStrategy.subscribe`: remove
the callback from the entry's set; if the set became empty, drop the
entry, and either close the connection (empty registry) or reconnect with
the updated inbox list. -/
def sseUnsubscribe (st : SSEState) (handle : String × Nat) : SSEState :=
  match getSub st.subscriptions handle.1 with
  | none => st
  | some sub =>
    let callbacks2 := sub.callbacks.filter (fun c => c ≠ handle.2)
    if callbacks2 = [] then
      let subs2 := st.subscriptions.filter (fun p => p.1 ≠ handle.1)
      let st2 := { st with subscriptions := subs2 }
      if subs2 = [] then sseDisconnect st2 else sseReconnect st2
    else
      { st with subscriptions := st.subscriptions.map (fun p =>
          if p.1 = handle.1 then (p.1, ⟨p.2.inboxHash, callbacks2⟩) else p) }

/-- The `unsubscribe` closure returned by `PollingStrategy.subscribe`:
its whole effect is `isActive = false`. -/
def pollingUnsubscribe (_isActive : Bool) : Bool := false

/-- The reconnection parameters of the SSE strategy (`SSEConfig` fields
with their constructor defaults 5000 ms, 10 attempts, multiplier 2). -/
structure SSERetryConfig where
  reconnectInterval : ℚ
  maxReconnectAttempts : Nat
  backoffMultiplier : ℚ

/-- The constructor defaults of the SSE strategy. -/
def defaultSSERetryConfig : SSERetryConfig := ⟨5000, 10, 2⟩

/-- How `handleConnectionError` surfaces a connection failure: schedule a
delayed reconnect (the normal asynchronous channel), throw an `SSEError`
synchronously inside the event handler (the `else` branch once attempts
are exhausted — observable by no caller), or ignore it while closing. -/
inductive FailureChannel where
  | scheduledReconnect (delay : ℚ)
  | thrownInEventHandler
  | swallowed
deriving DecidableEq

/-- Method `SSEStrategy.handleConnectionError`: tear the connection down, then
either schedule a reconnect after `reconnectInterval *
backoffMultiplier ^ attempts`, or — when `reconnectAttempts` has reached
`maxReconnectAttempts` — `throw new SSEError(...)` from inside the
handler. -/
def handleConnectionError (cfg : SSERetryConfig) (st : SSEState) : SSEState × FailureChannel :=
  if st.isClosing then (st, .swallowed)
  else if st.reconnectAttempts < cfg.maxReconnectAttempts then
    (sseDisconnect st,
      .scheduledReconnect (cfg.reconnectInterval * cfg.backoffMultiplier ^ st.reconnectAttempts))
  else (sseDisconnect st, .thrownInEventHandler)

/-- Synchronous outcome of the promise executor of
`SSEStrategy.waitForEmail`. -/
inductive SSEWaitSync where
  | pending
  | timedOut
deriving DecidableEq

/-- The synchronous prefix of `SSEStrategy.waitForEmail`'s promise
executor: start the timeout timer (not modelled), subscribe through the
strategy, then check `Date.now() - startTime >= timeout`; if the deadline
has already passed, unsubscribe and reject with `TimeoutError`
immediately, otherwise leave the wait pending.  Returns the resulting
strategy state, the number of subscribe calls performed, and the
synchronous outcome. -/
def sseWaitForEmailSync (st : SSEState) (email hash : String) (cb : Nat)
    (timeout elapsed : ℚ) : SSEState × Nat × SSEWaitSync :=
  if timeout ≤ elapsed then
    (sseUnsubscribe (sseSubscribe st email hash cb).1 (sseSubscribe st email hash cb).2,
      1, .timedOut)
  else ((sseSubscribe st email hash cb).1, 1, .pending)

/-! ## Theorems -/

/-! ### Codec lemmas -/

theorem sextetChar_props : ∀ k, k < 64 →
    sextetChar k ≠ '=' ∧
    slashToUnderscore (plusToDash (sextetChar k)) ≠ '=' ∧
    underscoreToSlash (dashToPlus (slashToUnderscore (plusToDash (sextetChar k)))) =
      sextetChar k ∧
    sextetVal (sextetChar k) = k := by decide

theorem urlmap_ne_special (x : Char) :
    slashToUnderscore (plusToDash x) ≠ '+' ∧ slashToUnderscore (plusToDash x) ≠ '/' := by
  unfold slashToUnderscore plusToDash
  by_cases h1 : x = '+' <;> by_cases h2 : x = '/' <;> simp [h1, h2]

theorem padBase64_cons4 (a b c d : Char) (l : List Char) :
    padBase64 (a :: b :: c :: d :: l) = a :: b :: c :: d :: padBase64 l := by
  simp only [padBase64, List.length_cons]
  have h4 : (l.length + 1 + 1 + 1 + 1) % 4 = l.length % 4 := by omega
  rw [h4]
  split <;> simp

theorem alphabet_char_props : ∀ c ∈ base64Chars,
    underscoreToSlash (dashToPlus (slashToUnderscore (plusToDash c))) = c ∧
    slashToUnderscore (plusToDash c) ≠ '=' := by decide

/-- Every character the encoder emits is an alphabet character or `=`. -/
theorem encode_chars_alphabet :
    ∀ bytes : List Nat, (∀ b ∈ bytes, b < 256) →
    ∀ c ∈ base64EncodeChunks bytes, c ∈ base64Chars ∨ c = '=' := by
  have hmem : ∀ k, k < 64 → sextetChar k ∈ base64Chars := by decide
  intro bytes
  induction bytes using base64EncodeChunks.induct with
  | case1 b0 b1 b2 rest ih =>
    intro h c hc
    have hb0 : b0 < 256 := h b0 (by simp)
    have hb1 : b1 < 256 := h b1 (by simp)
    have hb2 : b2 < 256 := h b2 (by simp)
    simp only [base64EncodeChunks, List.mem_cons] at hc
    rcases hc with rfl | rfl | rfl | rfl | hc
    · exact Or.inl (hmem _ (by omega))
    · exact Or.inl (hmem _ (by omega))
    · exact Or.inl (hmem _ (by omega))
    · exact Or.inl (hmem _ (by omega))
    · exact ih (fun b hb => h b (by simp [hb])) c hc
  | case2 b0 b1 =>
    intro h c hc
    have hb0 : b0 < 256 := h b0 (by simp)
    have hb1 : b1 < 256 := h b1 (by simp)
    simp only [base64EncodeChunks, List.mem_cons, List.not_mem_nil, or_false] at hc
    rcases hc with rfl | rfl | rfl | rfl
    · exact Or.inl (hmem _ (by omega))
    · exact Or.inl (hmem _ (by omega))
    · exact Or.inl (hmem _ (by omega))
    · exact Or.inr rfl
  | case3 b0 =>
    intro h c hc
    have hb0 : b0 < 256 := h b0 (by simp)
    simp only [base64EncodeChunks, List.mem_cons, List.not_mem_nil, or_false] at hc
    rcases hc with rfl | rfl | rfl | rfl
    · exact Or.inl (hmem _ (by omega))
    · exact Or.inl (hmem _ (by omega))
    · exact Or.inr rfl
    · exact Or.inr rfl
  | case4 =>
    intro _ c hc
    simp [base64EncodeChunks] at hc

/-- The `-`/`_` translations of `fromBase64Url` undo the `+`/`/`
translations of `toBase64Url` on every character the encoder can emit, so
the two translation layers cancel around the `=`-stripping filter. -/
theorem translate_cancel :
    ∀ l : List Char, (∀ c ∈ l, c ∈ base64Chars ∨ c = '=') →
    ((((l.map plusToDash).map slashToUnderscore).filter
        (fun c => c ≠ '=')).map dashToPlus).map underscoreToSlash =
      l.filter (fun c => c ≠ '=') := by
  intro l
  induction l with
  | nil => intro _; simp
  | cons c l ih =>
    intro h
    have hc := h c (by simp)
    have htail := ih (fun x hx => h x (by simp [hx]))
    rcases hc with hc | rfl
    · obtain ⟨hrt, hne⟩ := alphabet_char_props c hc
      have hcne : c ≠ '=' := by
        rintro rfl
        revert hc
        decide
      simp only [List.map_cons, List.filter_cons]
      rw [if_pos (by simp [hne]), if_pos (by simp [hcne])]
      simp only [List.map_cons, hrt, htail]
    · have h1 : plusToDash '=' = '=' := by decide
      have h2 : slashToUnderscore '=' = '=' := by decide
      simp only [List.map_cons, h1, h2, List.filter_cons]
      rw [if_neg (by simp), if_neg (by simp)]
      exact htail

/-- Core roundtrip on the `=`-stripped encoder output: re-padding and
decoding recovers the original bytes, chunk by chunk. -/
theorem decode_strip_pad :
    ∀ bytes : List Nat, (∀ b ∈ bytes, b < 256) →
    base64DecodeChunks (padBase64
      ((base64EncodeChunks bytes).filter (fun c => c ≠ '='))) = bytes := by
  intro bytes
  induction bytes using base64EncodeChunks.induct with
  | case1 b0 b1 b2 rest ih =>
    intro h
    have hb0 : b0 < 256 := h b0 (by simp)
    have hb1 : b1 < 256 := h b1 (by simp)
    have hb2 : b2 < 256 := h b2 (by simp)
    obtain ⟨he1, -, -, hv1⟩ := sextetChar_props (b0 / 4) (by omega)
    obtain ⟨he2, -, -, hv2⟩ := sextetChar_props (b0 % 4 * 16 + b1 / 16) (by omega)
    obtain ⟨he3, -, -, hv3⟩ := sextetChar_props (b1 % 16 * 4 + b2 / 64) (by omega)
    obtain ⟨he4, -, -, hv4⟩ := sextetChar_props (b2 % 64) (by omega)
    simp only [base64EncodeChunks, List.filter_cons]
    rw [if_pos (by simp [he1]), if_pos (by simp [he2]), if_pos (by simp [he3]),
      if_pos (by simp [he4]), padBase64_cons4, base64DecodeChunks,
      if_neg (by simp [he3]), if_neg (by simp [he4])]
    simp only [hv1, hv2, hv3, hv4, List.cons.injEq]
    exact ⟨by omega, by omega, by omega, ih (fun b hb => h b (by simp [hb]))⟩
  | case2 b0 b1 =>
    intro h
    have hb0 : b0 < 256 := h b0 (by simp)
    have hb1 : b1 < 256 := h b1 (by simp)
    obtain ⟨he1, -, -, hv1⟩ := sextetChar_props (b0 / 4) (by omega)
    obtain ⟨he2, -, -, hv2⟩ := sextetChar_props (b0 % 4 * 16 + b1 / 16) (by omega)
    obtain ⟨he3, -, -, hv3⟩ := sextetChar_props (b1 % 16 * 4) (by omega)
    simp only [base64EncodeChunks, List.filter_cons, List.filter_nil]
    rw [if_pos (by simp [he1]), if_pos (by simp [he2]), if_pos (by simp [he3]),
      if_neg (by simp)]
    rw [show padBase64 [sextetChar (b0 / 4), sextetChar (b0 % 4 * 16 + b1 / 16),
          sextetChar (b1 % 16 * 4)] =
        [sextetChar (b0 / 4), sextetChar (b0 % 4 * 16 + b1 / 16),
          sextetChar (b1 % 16 * 4), '='] from by simp [padBase64, List.replicate]]
    rw [base64DecodeChunks, if_neg (by simp [he3]), if_pos (by simp)]
    simp only [hv1, hv2, hv3, List.cons.injEq, and_true]
    constructor <;> omega
  | case3 b0 =>
    intro h
    have hb0 : b0 < 256 := h b0 (by simp)
    obtain ⟨he1, -, -, hv1⟩ := sextetChar_props (b0 / 4) (by omega)
    obtain ⟨he2, -, -, hv2⟩ := sextetChar_props (b0 % 4 * 16) (by omega)
    simp only [base64EncodeChunks, List.filter_cons, List.filter_nil]
    rw [if_pos (by simp [he1]), if_pos (by simp [he2]), if_neg (by simp), if_neg (by simp)]
    rw [show padBase64 [sextetChar (b0 / 4), sextetChar (b0 % 4 * 16)] =
        [sextetChar (b0 / 4), sextetChar (b0 % 4 * 16), '=', '='] from by
      simp [padBase64, List.replicate]]
    rw [base64DecodeChunks, if_pos (by simp)]
    simp only [hv1, hv2, List.cons.injEq, and_true]
    omega
  | case4 =>
    intro _
    simp [base64EncodeChunks, padBase64, base64DecodeChunks]

/-- C10: for every byte array `b`, `fromBase64Url (toBase64Url b)` returns a
byte array equal to `b`, and the string `toBase64Url b` contains no `+`,
`/` or `=` characters (padding is stripped on encode and re-added on
decode). -/
theorem base64url_roundtrip (bytes : List Nat) (h : ∀ b ∈ bytes, b < 256) :
    fromBase64Url (toBase64Url bytes) = bytes ∧
    ∀ c ∈ (toBase64Url bytes).data, c ≠ '+' ∧ c ≠ '/' ∧ c ≠ '=' := by
  constructor
  · have hpipe : fromBase64Url (toBase64Url bytes) =
        base64DecodeChunks (padBase64
          ((((((base64EncodeChunks bytes).map plusToDash).map slashToUnderscore).filter
              (fun c => c ≠ '=')).map dashToPlus).map underscoreToSlash)) := rfl
    rw [hpipe, translate_cancel _ (encode_chars_alphabet bytes h)]
    exact decode_strip_pad bytes h
  · intro c hc
    have hc' : c ∈ (((base64EncodeChunks bytes).map plusToDash).map slashToUnderscore).filter
        (fun c => decide (c ≠ '=')) := hc
    rw [List.mem_filter] at hc'
    obtain ⟨hmem, hpred⟩ := hc'
    simp only [List.mem_map] at hmem
    obtain ⟨a, ⟨x, -, rfl⟩, rfl⟩ := hmem
    exact ⟨(urlmap_ne_special x).1, (urlmap_ne_special x).2, by simpa using hpred⟩

theorem base64url_roundtrip_witness :
    (∀ b ∈ [0, 255, 77, 1], b < 256) ∧
    (fromBase64Url (toBase64Url [0, 255, 77, 1]) = [0, 255, 77, 1] ∧
      ∀ c ∈ (toBase64Url [0, 255, 77, 1]).data, c ≠ '+' ∧ c ≠ '/' ∧ c ≠ '=') :=
  ⟨by decide, base64url_roundtrip [0, 255, 77, 1] (by decide)⟩

theorem buildTranscript_eq_spec (e : EncryptedData) :
    buildTranscript e.v (buildAlgsCiphersuite e.algs) (fromBase64UrlBytes e.ct_kem)
      (fromBase64UrlBytes e.nonce) (fromBase64UrlBytes e.aad)
      (fromBase64UrlBytes e.ciphertext) (fromBase64UrlBytes e.server_sig_pk)
      HKDF_CONTEXT = specTranscript e := by
  simp [buildTranscript, concatBuffers, specTranscript, buildAlgsCiphersuite,
    List.append_assoc]

theorem verifySignature_eq (m : List Nat → List Nat → List Nat → Except String Bool)
    (e : EncryptedData) :
    verifySignature m e =
      match m (fromBase64UrlBytes e.sig) (specTranscript e)
          (fromBase64UrlBytes e.server_sig_pk) with
      | .ok true => .ok true
      | .ok false => .error .signatureInvalid
      | .error _ => .error .signatureInvalid := by
  rw [← buildTranscript_eq_spec e]
  rfl

theorem verifySignature_cases (m : List Nat → List Nat → List Nat → Except String Bool)
    (e : EncryptedData) :
    verifySignature m e = .ok true ∨ verifySignature m e = .error .signatureInvalid := by
  rw [verifySignature_eq]
  rcases m (fromBase64UrlBytes e.sig) (specTranscript e)
      (fromBase64UrlBytes e.server_sig_pk) with er | b
  · simp
  · cases b <;> simp

/-- C2: the verifier builds the ciphersuite string `"<kem>:<sig>:<aead>:<kdf>"`
and verifies the signature over the transcript concatenated in the claimed
order; a `false` verify result or primitive exception (and any decode
failure, though the node base64 codec is total) is normalized to the
single SignatureInvalid failure. -/
theorem verifySignature_transcript_and_normalization
    (m : List Nat → List Nat → List Nat → Except String Bool) (e : EncryptedData) :
    buildTranscript e.v (buildAlgsCiphersuite e.algs) (fromBase64UrlBytes e.ct_kem)
        (fromBase64UrlBytes e.nonce) (fromBase64UrlBytes e.aad)
        (fromBase64UrlBytes e.ciphertext) (fromBase64UrlBytes e.server_sig_pk)
        HKDF_CONTEXT = specTranscript e ∧
    (verifySignature m e = .ok true ↔
      m (fromBase64UrlBytes e.sig) (specTranscript e)
        (fromBase64UrlBytes e.server_sig_pk) = .ok true) ∧
    (verifySignature m e ≠ .ok true →
      verifySignature m e = .error .signatureInvalid) := by
  refine ⟨buildTranscript_eq_spec e, ?_, ?_⟩
  · rw [verifySignature_eq]
    rcases m (fromBase64UrlBytes e.sig) (specTranscript e)
        (fromBase64UrlBytes e.server_sig_pk) with er | b
    · simp
    · cases b <;> simp
  · intro hne
    rcases verifySignature_cases m e with hv | hv
    · exact absurd hv hne
    · exact hv

theorem verifySignature_transcript_witness :
    verifySignature (fun _ _ _ => Except.ok false)
        ⟨1, "AA", "AA", "AA", "AA", "AA", "AA", ⟨"k", "s", "a", "d"⟩⟩ ≠ Except.ok true ∧
    verifySignature (fun _ _ _ => Except.ok false)
        ⟨1, "AA", "AA", "AA", "AA", "AA", "AA", ⟨"k", "s", "a", "d"⟩⟩ =
      Except.error CryptoError.signatureInvalid :=
  have h : verifySignature (fun _ _ _ => Except.ok false)
      ⟨1, "AA", "AA", "AA", "AA", "AA", "AA", ⟨"k", "s", "a", "d"⟩⟩ =
        Except.error CryptoError.signatureInvalid := rfl
  ⟨by simp [h],
    (verifySignature_transcript_and_normalization
      (fun _ _ _ => Except.ok false)
      ⟨1, "AA", "AA", "AA", "AA", "AA", "AA", ⟨"k", "s", "a", "d"⟩⟩).2.2 (by simp [h])⟩

/-- C3: `deriveKey` computes its salt as the digest of the KEM ciphertext,
its info as context bytes ++ 4-byte big-endian aad length ++ aad bytes,
runs extract-and-expand derivation over the shared secret with that salt
and info, returns exactly 32 bytes (given the WebCrypto contract that
`deriveBits(…, 256)` yields 32 bytes), and is a pure function of its
inputs. -/
theorem deriveKey_salt_info_length (sha256 : List Nat → List Nat)
    (hkdfSha512 : List Nat → List Nat → List Nat → Nat → List Nat)
    (ikm : List Nat) (context : String) (aad : List Nat) (ctKem : List Nat)
    (hkdfLen : ∀ i s inf, (hkdfSha512 i s inf 256).length = 32) :
    deriveKey sha256 hkdfSha512 ikm context aad ctKem =
      hkdfSha512 ikm (sha256 ctKem)
        (utf8Bytes context ++ toBytesBE32 aad.length ++ aad) 256 ∧
    (deriveKey sha256 hkdfSha512 ikm context aad ctKem).length = 32 ∧
    ∀ ikm2 context2 aad2 ctKem2, ikm = ikm2 → context = context2 → aad = aad2 →
      ctKem = ctKem2 →
      deriveKey sha256 hkdfSha512 ikm context aad ctKem =
        deriveKey sha256 hkdfSha512 ikm2 context2 aad2 ctKem2 := by
  refine ⟨?_, ?_, ?_⟩
  · simp [deriveKey, concatBuffers, List.append_assoc]
  · exact hkdfLen ikm _ _
  · rintro ikm2 context2 aad2 ctKem2 rfl rfl rfl rfl
    rfl

theorem deriveKey_salt_info_length_witness :
    (∀ i s inf, ((fun _ _ _ len => List.replicate (len / 8) 7 :
        List Nat → List Nat → List Nat → Nat → List Nat) i s inf 256).length = 32) ∧
    (deriveKey (fun l => l) (fun _ _ _ len => List.replicate (len / 8) 7)
        [1, 2] "ctx" [3] [4, 5] =
      (fun _ _ _ len => List.replicate (len / 8) 7 :
        List Nat → List Nat → List Nat → Nat → List Nat) [1, 2] ((fun l => l) [4, 5])
        (utf8Bytes "ctx" ++ toBytesBE32 ([3] : List Nat).length ++ [3]) 256 ∧
    (deriveKey (fun l => l) (fun _ _ _ len => List.replicate (len / 8) 7)
        [1, 2] "ctx" [3] [4, 5]).length = 32 ∧
    ∀ ikm2 context2 aad2 ctKem2, [1, 2] = ikm2 → "ctx" = context2 → [3] = aad2 →
      [4, 5] = ctKem2 →
      deriveKey (fun l => l) (fun _ _ _ len => List.replicate (len / 8) 7)
          [1, 2] "ctx" [3] [4, 5] =
        deriveKey (fun l => l) (fun _ _ _ len => List.replicate (len / 8) 7)
          ikm2 context2 aad2 ctKem2) :=
  ⟨fun _ _ _ => by simp,
    deriveKey_salt_info_length (fun l => l) (fun _ _ _ len => List.replicate (len / 8) 7)
      [1, 2] "ctx" [3] [4, 5] (fun _ _ _ => by simp)⟩

theorem decrypt_trace_head (Q : CryptoPrims) (f : EncryptedData) (kq : Keypair) :
    (decrypt Q f kq).2.head? = some PrimCall.verifyCall := by
  unfold decrypt
  split
  · rfl
  · split
    · rfl
    · split <;> rfl

/-- C1: if the envelope's signature does not verify against the transcript
derived from that same envelope's fields, `decrypt` fails with
SignatureInvalid and the KEM decapsulation primitive is never invoked;
moreover decapsulation only ever appears on a trace whose signature
verification succeeded, and every trace starts with the verification
call. -/
theorem decrypt_verify_before_decap (P : CryptoPrims) (e : EncryptedData) (kp : Keypair)
    (h : verifySignature P.mldsaVerify e ≠ .ok true) :
    (decrypt P e kp).1 = .error .signatureInvalid ∧
    PrimCall.decapCall ∉ (decrypt P e kp).2 ∧
    (∀ (Q : CryptoPrims) (f : EncryptedData) (kq : Keypair),
      PrimCall.decapCall ∈ (decrypt Q f kq).2 →
        verifySignature Q.mldsaVerify f = .ok true ∧
        (decrypt Q f kq).2.head? = some .verifyCall) := by
  have hv : verifySignature P.mldsaVerify e = .error .signatureInvalid := by
    rcases verifySignature_cases P.mldsaVerify e with hv | hv
    · exact absurd hv h
    · exact hv
  have hfst : decrypt P e kp = (.error .signatureInvalid, [.verifyCall]) := by
    unfold decrypt
    rw [hv]
  refine ⟨by rw [hfst], by rw [hfst]; simp, ?_⟩
  intro Q f kq hmem
  rcases verifySignature_cases Q.mldsaVerify f with hv2 | hv2
  · exact ⟨hv2, decrypt_trace_head Q f kq⟩
  · exfalso
    have : decrypt Q f kq = (.error .signatureInvalid, [.verifyCall]) := by
      unfold decrypt
      rw [hv2]
    rw [this] at hmem
    simp at hmem

theorem decrypt_verify_before_decap_witness :
    (verifySignature (⟨fun _ _ _ => Except.ok false, fun _ _ => Except.ok [0],
        fun _ => [], fun _ _ _ _ => [], fun _ _ _ _ => Except.ok []⟩ :
          CryptoPrims).mldsaVerify
      ⟨1, "AA", "AA", "AA", "AA", "AA", "AA", ⟨"k", "s", "a", "d"⟩⟩ ≠ Except.ok true) ∧
    ((decrypt ⟨fun _ _ _ => Except.ok false, fun _ _ => Except.ok [0],
        fun _ => [], fun _ _ _ _ => [], fun _ _ _ _ => Except.ok []⟩
      ⟨1, "AA", "AA", "AA", "AA", "AA", "AA", ⟨"k", "s", "a", "d"⟩⟩
      ⟨[], [], ""⟩).1 = Except.error CryptoError.signatureInvalid ∧
    PrimCall.decapCall ∉ (decrypt ⟨fun _ _ _ => Except.ok false, fun _ _ => Except.ok [0],
        fun _ => [], fun _ _ _ _ => [], fun _ _ _ _ => Except.ok []⟩
      ⟨1, "AA", "AA", "AA", "AA", "AA", "AA", ⟨"k", "s", "a", "d"⟩⟩
      ⟨[], [], ""⟩).2 ∧
    (∀ (Q : CryptoPrims) (f : EncryptedData) (kq : Keypair),
      PrimCall.decapCall ∈ (decrypt Q f kq).2 →
        verifySignature Q.mldsaVerify f = .ok true ∧
        (decrypt Q f kq).2.head? = some .verifyCall)) :=
  have h : verifySignature (⟨fun _ _ _ => Except.ok false, fun _ _ => Except.ok [0],
      fun _ => [], fun _ _ _ _ => [], fun _ _ _ _ => Except.ok []⟩ :
        CryptoPrims).mldsaVerify
      ⟨1, "AA", "AA", "AA", "AA", "AA", "AA", ⟨"k", "s", "a", "d"⟩⟩ =
        Except.error CryptoError.signatureInvalid := rfl
  ⟨by simp [h],
    decrypt_verify_before_decap _ _ ⟨[], [], ""⟩ (by simp [h])⟩

/-- A no-change tick (the stored `lastHash` equals the fetched hash):
the sleep and the next state of `pollTick`, in closed form. -/
theorem pollTick_no_change (cfg : PollingConfig) (st : PollState) (hash : String)
    (r m : ℚ) (hlast : st.lastHash = some hash) :
    (pollTick cfg st hash r m).1 =
      min (min (st.currentBackoff + r * cfg.jitterFactor * st.currentBackoff)
        cfg.maxBackoff) m ∧
    (pollTick cfg st hash r m).2 =
      ⟨some hash, min (st.currentBackoff * cfg.backoffMultiplier) cfg.maxBackoff⟩ := by
  constructor <;> simp [pollTick, hlast]

/-- The first tick of a wait (stored `lastHash` still `null`): the backoff
is reset to the poll interval before sleeping, and still multiplied after
the sleep. -/
theorem pollTick_first (cfg : PollingConfig) (b : ℚ) (hash : String) (r m : ℚ) :
    (pollTick cfg ⟨none, b⟩ hash r m).1 =
      min (min (cfg.initialInterval + r * cfg.jitterFactor * cfg.initialInterval)
        cfg.maxBackoff) m ∧
    (pollTick cfg ⟨none, b⟩ hash r m).2 =
      ⟨some hash, min (cfg.initialInterval * cfg.backoffMultiplier) cfg.maxBackoff⟩ := by
  constructor <;> simp [pollTick]

/-- C4 (amended general formula): on a no-change tick the code sleeps
`min(min(interval + jitter, maxBackoff), remaining)` — the claim's
`min(interval + jitter, remaining)` omits the `maxBackoff` clamp on the
jittered sum — and then sets
`interval = min(interval * multiplier, maxBackoff)`.  Concretely, with the
default configuration, after the first (change) tick and two further
no-change ticks the stored pre-jitter interval is `2000 * 1.5 ^ 3 = 6750`,
and the sleep performed at the third consecutive no-change tick lies in
`[6750, 6750 * 1.3)` (so within the claimed `[6750, 6750 * 1.3]`)
whenever at least `8775` ms remain before the timeout. -/
theorem polling_backoff_schedule (h : String) (r1 r2 r3 r4 m1 m2 m3 m4 : ℚ)
    (hr0 : 0 ≤ r4) (hr1 : r4 < 1) (hm : 8775 ≤ m4) :
    (∀ (cfg : PollingConfig) (st : PollState) (hash : String) (r m : ℚ),
      st.lastHash = some hash →
        (pollTick cfg st hash r m).1 =
          min (min (st.currentBackoff + r * cfg.jitterFactor * st.currentBackoff)
            cfg.maxBackoff) m ∧
        (pollTick cfg st hash r m).2.currentBackoff =
          min (st.currentBackoff * cfg.backoffMultiplier) cfg.maxBackoff) ∧
    ((pollTick defaultPollingConfig
        (pollTick defaultPollingConfig
          (pollTick defaultPollingConfig ⟨none, 2000⟩ h r1 m1).2 h r2 m2).2
        h r3 m3).2.currentBackoff = 6750 ∧
      6750 ≤ (pollTick defaultPollingConfig
        (pollTick defaultPollingConfig
          (pollTick defaultPollingConfig
            (pollTick defaultPollingConfig ⟨none, 2000⟩ h r1 m1).2 h r2 m2).2
          h r3 m3).2 h r4 m4).1 ∧
      (pollTick defaultPollingConfig
        (pollTick defaultPollingConfig
          (pollTick defaultPollingConfig
            (pollTick defaultPollingConfig ⟨none, 2000⟩ h r1 m1).2 h r2 m2).2
          h r3 m3).2 h r4 m4).1 < 8775) := by
  refine ⟨fun cfg st hash r m hlast =>
    ⟨(pollTick_no_change cfg st hash r m hlast).1,
      by rw [(pollTick_no_change cfg st hash r m hlast).2]⟩, ?_⟩
  have hst1 : (pollTick defaultPollingConfig ⟨none, 2000⟩ h r1 m1).2 =
      ⟨some h, 3000⟩ := by
    rw [(pollTick_first defaultPollingConfig 2000 h r1 m1).2]
    simp only [defaultPollingConfig, PollState.mk.injEq, true_and]
    norm_num [min_def]
  rw [hst1]
  have hst2 : (pollTick defaultPollingConfig ⟨some h, 3000⟩ h r2 m2).2 =
      ⟨some h, 4500⟩ := by
    rw [(pollTick_no_change defaultPollingConfig ⟨some h, 3000⟩ h r2 m2 rfl).2]
    simp only [defaultPollingConfig, PollState.mk.injEq, true_and]
    norm_num [min_def]
  rw [hst2]
  have hst3 : (pollTick defaultPollingConfig ⟨some h, 4500⟩ h r3 m3).2 =
      ⟨some h, 6750⟩ := by
    rw [(pollTick_no_change defaultPollingConfig ⟨some h, 4500⟩ h r3 m3 rfl).2]
    simp only [defaultPollingConfig, PollState.mk.injEq, true_and]
    norm_num [min_def]
  rw [hst3]
  have hsleep : (pollTick defaultPollingConfig ⟨some h, 6750⟩ h r4 m4).1 =
      6750 + r4 * (3 / 10) * 6750 := by
    rw [(pollTick_no_change defaultPollingConfig ⟨some h, 6750⟩ h r4 m4 rfl).1]
    show min (min (6750 + r4 * (3 / 10) * 6750) 30000) m4 = 6750 + r4 * (3 / 10) * 6750
    rw [min_eq_left (le_trans (min_le_left _ _) (by nlinarith)),
      min_eq_left (by nlinarith)]
  exact ⟨rfl, by rw [hsleep]; nlinarith, by rw [hsleep]; nlinarith⟩

theorem polling_backoff_schedule_witness :
    ((0 : ℚ) ≤ 1 / 2 ∧ (1 / 2 : ℚ) < 1 ∧ (8775 : ℚ) ≤ 50000) ∧
    ((pollTick defaultPollingConfig
        (pollTick defaultPollingConfig
          (pollTick defaultPollingConfig ⟨none, 2000⟩ "d1" 0 50000).2 "d1" 0 50000).2
        "d1" 0 50000).2.currentBackoff = 6750 ∧
      6750 ≤ (pollTick defaultPollingConfig
        (pollTick defaultPollingConfig
          (pollTick defaultPollingConfig
            (pollTick defaultPollingConfig ⟨none, 2000⟩ "d1" 0 50000).2 "d1" 0 50000).2
          "d1" 0 50000).2 "d1" (1 / 2) 50000).1 ∧
      (pollTick defaultPollingConfig
        (pollTick defaultPollingConfig
          (pollTick defaultPollingConfig
            (pollTick defaultPollingConfig ⟨none, 2000⟩ "d1" 0 50000).2 "d1" 0 50000).2
          "d1" 0 50000).2 "d1" (1 / 2) 50000).1 < 8775) :=
  ⟨⟨by norm_num, by norm_num, by norm_num⟩,
    (polling_backoff_schedule "d1" 0 0 0 (1 / 2) 50000 50000 50000 50000
      (by norm_num) (by norm_num) (by norm_num)).2⟩

/-- Counterexample to C4 as stated: at the reachable state where the
backoff has been clamped to `maxBackoff = 30000` (one change tick followed
by seven no-change ticks with the same digest), with `Math.random() = 0.9`
and `1000000` ms remaining, the code sleeps
`min(min(30000 + 8100, 30000), 1000000) = 30000`, while the claim's
general formula `min(interval + uniformRandom(0, interval * jitterFactor),
remainingTimeBeforeTimeout)` gives `38100`. -/
theorem polling_sleep_formula_counterexample :
    (pollTick defaultPollingConfig (pollTick defaultPollingConfig (pollTick defaultPollingConfig (pollTick defaultPollingConfig (pollTick defaultPollingConfig (pollTick defaultPollingConfig (pollTick defaultPollingConfig (pollTick defaultPollingConfig ⟨none, 2000⟩ "d1" 0 1000000).2 "d1" 0 1000000).2 "d1" 0 1000000).2 "d1" 0 1000000).2 "d1" 0 1000000).2 "d1" 0 1000000).2 "d1" 0 1000000).2 "d1" 0 1000000).2.currentBackoff = 30000 ∧
    (pollTick defaultPollingConfig (pollTick defaultPollingConfig (pollTick defaultPollingConfig (pollTick defaultPollingConfig (pollTick defaultPollingConfig (pollTick defaultPollingConfig (pollTick defaultPollingConfig (pollTick defaultPollingConfig (pollTick defaultPollingConfig ⟨none, 2000⟩ "d1" 0 1000000).2 "d1" 0 1000000).2 "d1" 0 1000000).2 "d1" 0 1000000).2 "d1" 0 1000000).2 "d1" 0 1000000).2 "d1" 0 1000000).2 "d1" 0 1000000).2 "d1" (9 / 10) 1000000).1 = 30000 ∧
    min ((30000 : ℚ) + (9 / 10) * ((3 / 10) * 30000)) 1000000 = 38100 ∧
    (38100 : ℚ) ≠ 30000 := by
  have t0 : (pollTick defaultPollingConfig ⟨none, 2000⟩ "d1" 0 1000000).2 = ⟨some "d1", 3000⟩ := by
    rw [(pollTick_first defaultPollingConfig 2000 "d1" 0 1000000).2]
    simp only [defaultPollingConfig, PollState.mk.injEq, true_and]
    norm_num [min_def]
  have t1 : (pollTick defaultPollingConfig (pollTick defaultPollingConfig ⟨none, 2000⟩ "d1" 0 1000000).2 "d1" 0 1000000).2 = ⟨some "d1", 4500⟩ := by
    rw [t0, (pollTick_no_change defaultPollingConfig ⟨some "d1", 3000⟩ "d1" 0 1000000 rfl).2]
    simp only [defaultPollingConfig, PollState.mk.injEq, true_and]
    norm_num [min_def]
  have t2 : (pollTick defaultPollingConfig (pollTick defaultPollingConfig (pollTick defaultPollingConfig ⟨none, 2000⟩ "d1" 0 1000000).2 "d1" 0 1000000).2 "d1" 0 1000000).2 = ⟨some "d1", 6750⟩ := by
    rw [t1, (pollTick_no_change defaultPollingConfig ⟨some "d1", 4500⟩ "d1" 0 1000000 rfl).2]
    simp only [defaultPollingConfig, PollState.mk.injEq, true_and]
    norm_num [min_def]
  have t3 : (pollTick defaultPollingConfig (pollTick defaultPollingConfig (pollTick defaultPollingConfig (pollTick defaultPollingConfig ⟨none, 2000⟩ "d1" 0 1000000).2 "d1" 0 1000000).2 "d1" 0 1000000).2 "d1" 0 1000000).2 = ⟨some "d1", 10125⟩ := by
    rw [t2, (pollTick_no_change defaultPollingConfig ⟨some "d1", 6750⟩ "d1" 0 1000000 rfl).2]
    simp only [defaultPollingConfig, PollState.mk.injEq, true_and]
    norm_num [min_def]
  have t4 : (pollTick defaultPollingConfig (pollTick defaultPollingConfig (pollTick defaultPollingConfig (pollTick defaultPollingConfig (pollTick defaultPollingConfig ⟨none, 2000⟩ "d1" 0 1000000).2 "d1" 0 1000000).2 "d1" 0 1000000).2 "d1" 0 1000000).2 "d1" 0 1000000).2 = ⟨some "d1", 30375 / 2⟩ := by
    rw [t3, (pollTick_no_change defaultPollingConfig ⟨some "d1", 10125⟩ "d1" 0 1000000 rfl).2]
    simp only [defaultPollingConfig, PollState.mk.injEq, true_and]
    norm_num [min_def]
  have t5 : (pollTick defaultPollingConfig (pollTick defaultPollingConfig (pollTick defaultPollingConfig (pollTick defaultPollingConfig (pollTick defaultPollingConfig (pollTick defaultPollingConfig ⟨none, 2000⟩ "d1" 0 1000000).2 "d1" 0 1000000).2 "d1" 0 1000000).2 "d1" 0 1000000).2 "d1" 0 1000000).2 "d1" 0 1000000).2 = ⟨some "d1", 91125 / 4⟩ := by
    rw [t4, (pollTick_no_change defaultPollingConfig ⟨some "d1", 30375 / 2⟩ "d1" 0 1000000 rfl).2]
    simp only [defaultPollingConfig, PollState.mk.injEq, true_and]
    norm_num [min_def]
  have t6 : (pollTick defaultPollingConfig (pollTick defaultPollingConfig (pollTick defaultPollingConfig (pollTick defaultPollingConfig (pollTick defaultPollingConfig (pollTick defaultPollingConfig (pollTick defaultPollingConfig ⟨none, 2000⟩ "d1" 0 1000000).2 "d1" 0 1000000).2 "d1" 0 1000000).2 "d1" 0 1000000).2 "d1" 0 1000000).2 "d1" 0 1000000).2 "d1" 0 1000000).2 = ⟨some "d1", 30000⟩ := by
    rw [t5, (pollTick_no_change defaultPollingConfig ⟨some "d1", 91125 / 4⟩ "d1" 0 1000000 rfl).2]
    simp only [defaultPollingConfig, PollState.mk.injEq, true_and]
    norm_num [min_def]
  have t7 : (pollTick defaultPollingConfig (pollTick defaultPollingConfig (pollTick defaultPollingConfig (pollTick defaultPollingConfig (pollTick defaultPollingConfig (pollTick defaultPollingConfig (pollTick defaultPollingConfig (pollTick defaultPollingConfig ⟨none, 2000⟩ "d1" 0 1000000).2 "d1" 0 1000000).2 "d1" 0 1000000).2 "d1" 0 1000000).2 "d1" 0 1000000).2 "d1" 0 1000000).2 "d1" 0 1000000).2 "d1" 0 1000000).2 = ⟨some "d1", 30000⟩ := by
    rw [t6, (pollTick_no_change defaultPollingConfig ⟨some "d1", 30000⟩ "d1" 0 1000000 rfl).2]
    simp only [defaultPollingConfig, PollState.mk.injEq, true_and]
    norm_num [min_def]
  rw [t7]
  refine ⟨rfl, ?_, by norm_num [min_def], by norm_num⟩
  rw [(pollTick_no_change defaultPollingConfig ⟨some "d1", 30000⟩ "d1" (9 / 10) 1000000
    rfl).1]
  show min (min ((30000 : ℚ) + 9 / 10 * (3 / 10) * 30000) 30000) 1000000 = 30000
  norm_num [min_def]

/-- C8: during a polling wait, a 404-style "resource gone" response from
the snapshot fetch is translated to `InboxNotFoundError` (the spec's
`ResourceNotFound`) and propagated to the caller immediately: whatever
inputs would follow, the loop performs no further iterations. -/
theorem polling_404_immediate (cfg : PollingConfig) (timeout : ℚ) (st : PollState)
    (i : PollInput) (rest : List PollInput)
    (hguard : i.elapsed < timeout) (hobs : i.obs = .gone) :
    pollingWaitAux cfg timeout st (i :: rest) = (.inboxNotFound, 1) := by
  unfold pollingWaitAux
  rw [if_pos hguard, hobs]

theorem polling_404_immediate_witness :
    ((0 : ℚ) < 5000 ∧ (⟨0, 0, 5000, .gone⟩ : PollInput).obs = PollObs.gone) ∧
    pollingWaitAux defaultPollingConfig 5000 ⟨none, 2000⟩
      [⟨0, 0, 5000, .gone⟩, ⟨1, 0, 4000, .sync "x" 1 true⟩] =
      (PollResult.inboxNotFound, 1) :=
  ⟨⟨by norm_num, rfl⟩,
    polling_404_immediate defaultPollingConfig 5000 ⟨none, 2000⟩
      ⟨0, 0, 5000, .gone⟩ [⟨1, 0, 4000, .sync "x" 1 true⟩] (by norm_num) rfl⟩

theorem sseConnect_subscriptions (st : SSEState) :
    (sseConnect st).subscriptions = st.subscriptions := by
  unfold sseConnect
  split_ifs <;> rfl

theorem sseReconnect_subscriptions (st : SSEState) :
    (sseReconnect st).subscriptions = st.subscriptions := by
  unfold sseReconnect sseDisconnect
  rw [sseConnect_subscriptions]

theorem getSub_filter_self (subs : List (String × InboxSubscription)) (e : String) :
    getSub (subs.filter (fun p => p.1 ≠ e)) e = none := by
  simp only [getSub, Option.map_eq_none', List.find?_eq_none, List.mem_filter]
  rintro x ⟨-, hx⟩
  simpa using hx

theorem getSub_map_update (e : String) (g : InboxSubscription → InboxSubscription) :
    ∀ (subs : List (String × InboxSubscription)) (sub : InboxSubscription),
      getSub subs e = some sub →
      getSub (subs.map (fun p => if p.1 = e then (p.1, g p.2) else p)) e = some (g sub) := by
  intro subs
  induction subs with
  | nil => intro sub hs; simp [getSub] at hs
  | cons hd tl ih =>
    intro sub hs
    by_cases hh : hd.1 = e
    · have hds : hd.2 = sub := by
        simpa [getSub, List.find?_cons, hh] using hs
      simp [getSub, List.find?_cons, hh, hds]
    · have htl : getSub tl e = some sub := by
        simpa [getSub, List.find?_cons, hh] using hs
      simpa [getSub, List.find?_cons, hh] using ih sub htl

theorem filter_ne_idem (l : List Nat) (x : Nat) :
    (l.filter (fun c => c ≠ x)).filter (fun c => c ≠ x) = l.filter (fun c => c ≠ x) := by
  rw [List.filter_filter]
  simp

theorem sseUnsubscribe_of_none (st : SSEState) (h : String × Nat)
    (hs : getSub st.subscriptions h.1 = none) : sseUnsubscribe st h = st := by
  unfold sseUnsubscribe
  rw [hs]

theorem sseUnsubscribe_of_empty (st : SSEState) (h : String × Nat) (sub : InboxSubscription)
    (hs : getSub st.subscriptions h.1 = some sub)
    (hc : sub.callbacks.filter (fun c => c ≠ h.2) = []) :
    sseUnsubscribe st h =
      if st.subscriptions.filter (fun p => p.1 ≠ h.1) = [] then
        sseDisconnect { st with subscriptions := st.subscriptions.filter (fun p => p.1 ≠ h.1) }
      else
        sseReconnect { st with subscriptions := st.subscriptions.filter (fun p => p.1 ≠ h.1) } := by
  unfold sseUnsubscribe
  rw [hs]
  exact if_pos hc

theorem sseUnsubscribe_of_inplace (st : SSEState) (h : String × Nat) (sub : InboxSubscription)
    (hs : getSub st.subscriptions h.1 = some sub)
    (hc : sub.callbacks.filter (fun c => c ≠ h.2) ≠ []) :
    sseUnsubscribe st h =
      { st with subscriptions := st.subscriptions.map (fun p =>
          if p.1 = h.1 then (p.1, ⟨p.2.inboxHash, sub.callbacks.filter (fun c => c ≠ h.2)⟩)
          else p) } := by
  unfold sseUnsubscribe
  rw [hs]
  exact if_neg hc

theorem sseUnsubscribe_subscriptions_of_empty (st : SSEState) (h : String × Nat)
    (sub : InboxSubscription) (hs : getSub st.subscriptions h.1 = some sub)
    (hc : sub.callbacks.filter (fun c => c ≠ h.2) = []) :
    (sseUnsubscribe st h).subscriptions = st.subscriptions.filter (fun p => p.1 ≠ h.1) := by
  rw [sseUnsubscribe_of_empty st h sub hs hc]
  split_ifs
  · rfl
  · rw [sseReconnect_subscriptions]

/-- C9: for every subscription handle of either delivery strategy,
unsubscribing more than once is a no-op after the first call: the second
(and by iteration every later) call leaves the subscription registry and
connection state unchanged, and no call can throw (all operations are
total). -/
theorem unsubscribe_idempotent (st : SSEState) (h : String × Nat) (a : Bool) :
    sseUnsubscribe (sseUnsubscribe st h) h = sseUnsubscribe st h ∧
    pollingUnsubscribe (pollingUnsubscribe a) = pollingUnsubscribe a := by
  refine ⟨?_, rfl⟩
  rcases hsub : getSub st.subscriptions h.1 with _ | sub
  · rw [sseUnsubscribe_of_none st h hsub, sseUnsubscribe_of_none st h hsub]
  · by_cases hc : sub.callbacks.filter (fun c => c ≠ h.2) = []
    · refine sseUnsubscribe_of_none _ h ?_
      rw [sseUnsubscribe_subscriptions_of_empty st h sub hsub hc]
      exact getSub_filter_self st.subscriptions h.1
    · have h1 := sseUnsubscribe_of_inplace st h sub hsub hc
      have hget2 : getSub (sseUnsubscribe st h).subscriptions h.1 =
          some ⟨sub.inboxHash, sub.callbacks.filter (fun c => c ≠ h.2)⟩ := by
        rw [h1]
        exact getSub_map_update h.1
          (fun v => ⟨v.inboxHash, sub.callbacks.filter (fun c => c ≠ h.2)⟩)
          st.subscriptions sub hsub
      have hcf : (sub.callbacks.filter (fun c => c ≠ h.2)).filter (fun c => c ≠ h.2) =
          sub.callbacks.filter (fun c => c ≠ h.2) := filter_ne_idem _ _
      have h2 := sseUnsubscribe_of_inplace (sseUnsubscribe st h) h
        ⟨sub.inboxHash, sub.callbacks.filter (fun c => c ≠ h.2)⟩ hget2 (by
          show ((⟨sub.inboxHash, sub.callbacks.filter (fun c => c ≠ h.2)⟩ :
            InboxSubscription).callbacks.filter (fun c => c ≠ h.2)) ≠ []
          rw [hcf]
          exact hc)
      rw [h2, h1]
      simp only [List.map_map]
      congr 1
      apply List.map_congr_left
      intro p _
      by_cases hp : p.1 = h.1
      · simp only [Function.comp_apply, hp, if_true, ite_true, hcf]
      · simp only [Function.comp_apply, hp, if_false, ite_false]

theorem unsubscribe_idempotent_examples :
    sseUnsubscribe (sseUnsubscribe ⟨[("a@x", ⟨"h1", [5]⟩)], some ["h1"], 0, false⟩
        ("a@x", 5)) ("a@x", 5) =
      sseUnsubscribe ⟨[("a@x", ⟨"h1", [5]⟩)], some ["h1"], 0, false⟩ ("a@x", 5) ∧
    pollingUnsubscribe (pollingUnsubscribe true) = pollingUnsubscribe true :=
  unsubscribe_idempotent ⟨[("a@x", ⟨"h1", [5]⟩)], some ["h1"], 0, false⟩ ("a@x", 5) true

/-- C6 (evidence for the code bug): with the default configuration, a
connection error at `reconnectAttempts = 10 = maxReconnectAttempts`
surfaces the exhaustion by throwing inside the internal event handler —
not through the scheduled-reconnect/error-callback channel used for every
earlier failure (shown at attempts `= 9` for contrast), contradicting the
claim's required delivery channel. -/
theorem streamExhausted_thrown_in_handler :
    (handleConnectionError defaultSSERetryConfig ⟨[], none, 10, false⟩).2 =
      FailureChannel.thrownInEventHandler ∧
    (handleConnectionError defaultSSERetryConfig ⟨[], none, 9, false⟩).2 =
      FailureChannel.scheduledReconnect (5000 * 2 ^ 9) := by
  constructor <;> norm_num [handleConnectionError, defaultSSERetryConfig, sseDisconnect]

theorem getSub_append_of_none (subs : List (String × InboxSubscription)) (e : String)
    (x : InboxSubscription) (hs : getSub subs e = none) :
    getSub (subs ++ [(e, x)]) e = some x := by
  induction subs with
  | nil => simp [getSub, List.find?_cons]
  | cons hd tl ih =>
    by_cases hh : hd.1 = e
    · exfalso
      simp [getSub, List.find?_cons, hh] at hs
    · have htl : getSub tl e = none := by
        simpa [getSub, List.find?_cons, hh] using hs
      simpa [getSub, List.find?_cons, hh] using ih htl

theorem sseSubscribe_subscriptions_of_new (st : SSEState) (email hash : String) (cb : Nat)
    (hget : getSub st.subscriptions email = none) :
    (sseSubscribe st email hash cb).1.subscriptions =
      st.subscriptions ++ [(email, ⟨hash, [cb]⟩)] := by
  simp only [sseSubscribe, hget]
  split_ifs
  · rw [sseConnect_subscriptions]
  · rw [sseReconnect_subscriptions]

/-- C5 (amended): with a zero timeout (more generally, a deadline already
reached), `PollingStrategy.waitForEmail` fails with `TimeoutError` before
any fetch iteration; `SSEStrategy.waitForEmail` also fails with
`TimeoutError` synchronously, but only after subscribing through the
strategy and immediately unsubscribing, which restores the subscription
registry. -/
theorem waitForEmail_zero_timeout (cfg : PollingConfig) (inputs : List PollInput)
    (st : PollState) (sse : SSEState) (email hash : String) (cb : Nat) (elapsed : ℚ)
    (hin : ∀ i ∈ inputs, 0 ≤ i.elapsed) (hel : 0 ≤ elapsed)
    (hget : getSub sse.subscriptions email = none) :
    pollingWaitAux cfg 0 st inputs = (.timedOut, 0) ∧
    (sseWaitForEmailSync sse email hash cb 0 elapsed).2.2 = .timedOut ∧
    (sseWaitForEmailSync sse email hash cb 0 elapsed).1.subscriptions =
      sse.subscriptions := by
  have hw : sseWaitForEmailSync sse email hash cb 0 elapsed =
      (sseUnsubscribe (sseSubscribe sse email hash cb).1
        (sseSubscribe sse email hash cb).2, 1, .timedOut) := by
    unfold sseWaitForEmailSync
    rw [if_pos hel]
  refine ⟨?_, by rw [hw], ?_⟩
  · cases inputs with
    | nil => rfl
    | cons i rest =>
      unfold pollingWaitAux
      rw [if_neg (not_lt.mpr (hin i (by simp)))]
  · rw [hw]
    have hsub2 : (sseSubscribe sse email hash cb).2 = (email, cb) := by
      simp [sseSubscribe]
    rw [hsub2]
    have hsubs1 := sseSubscribe_subscriptions_of_new sse email hash cb hget
    have hga : getSub (sseSubscribe sse email hash cb).1.subscriptions email =
        some ⟨hash, [cb]⟩ := by
      rw [hsubs1]
      exact getSub_append_of_none _ _ _ hget
    rw [sseUnsubscribe_subscriptions_of_empty _ (email, cb) ⟨hash, [cb]⟩ hga (by simp)]
    rw [hsubs1, List.filter_append]
    unfold getSub at hget
    have hfind := Option.map_eq_none'.mp hget
    have hall : ∀ p ∈ sse.subscriptions, p.1 ≠ email := by
      intro p hp
      have hnp := List.find?_eq_none.mp hfind p hp
      simpa using hnp
    rw [List.filter_eq_self.mpr (fun p hp => by simpa using hall p hp)]
    simp

theorem waitForEmail_zero_timeout_witness :
    ((∀ i ∈ ([⟨1, 0, 5, .sync "x" 1 true⟩] : List PollInput), 0 ≤ i.elapsed) ∧
      (0 : ℚ) ≤ 0 ∧
      getSub (⟨[], none, 0, false⟩ : SSEState).subscriptions "a@x" = none) ∧
    (pollingWaitAux defaultPollingConfig 0 ⟨none, 2000⟩
        [⟨1, 0, 5, .sync "x" 1 true⟩] = (.timedOut, 0) ∧
      (sseWaitForEmailSync ⟨[], none, 0, false⟩ "a@x" "h1" 7 0 0).2.2 = .timedOut ∧
      (sseWaitForEmailSync ⟨[], none, 0, false⟩ "a@x" "h1" 7 0 0).1.subscriptions =
        (⟨[], none, 0, false⟩ : SSEState).subscriptions) :=
  ⟨⟨by intro i hi; simp at hi; subst hi; exact (show (0 : ℚ) ≤ 1 by norm_num),
      by norm_num, rfl⟩,
    waitForEmail_zero_timeout defaultPollingConfig [⟨1, 0, 5, .sync "x" 1 true⟩]
      ⟨none, 2000⟩ ⟨[], none, 0, false⟩ "a@x" "h1" 7 0
      (by intro i hi; simp at hi; subst hi; exact (show (0 : ℚ) ≤ 1 by norm_num))
      (by norm_num) rfl⟩

/-- Counterexample to C5 as stated: at a concrete empty strategy state,
`SSEStrategy.waitForEmail` with `timeout = 0` does reject with
`TimeoutError`, but it performs one `subscribe` call through the delivery
strategy before doing so — the claim asserts the failure happens without
subscribing. -/
theorem sse_zero_timeout_subscribes :
    (sseWaitForEmailSync ⟨[], none, 0, false⟩ "a@x" "h1" 7 0 0).2.1 = 1 ∧
    (sseWaitForEmailSync ⟨[], none, 0, false⟩ "a@x" "h1" 7 0 0).2.2 =
      SSEWaitSync.timedOut ∧
    (1 : Nat) ≠ 0 :=
  ⟨rfl, rfl, by decide⟩

/-- C7: the single stream connection is parameterized by the current list
of registered inbox routing hashes (general `connect` characterization);
removing one of two subscriptions that share the stream triggers a
reconnect whose hash set contains only the remaining routing hash — not a
full disconnect — and removing the last subscription closes the
connection. -/
theorem stream_connection_hashes (st : SSEState) (e1 e2 : String)
    (s1 s2 : InboxSubscription) (c1 c2 : Nat)
    (hsubs : st.subscriptions = [(e1, s1), (e2, s2)]) (hne : e1 ≠ e2)
    (hs1 : s1.callbacks = [c1]) (hs2 : s2.callbacks = [c2])
    (hhash2 : s2.inboxHash ≠ "") (hclosing : st.isClosing = false) :
    (∀ t : SSEState, t.isClosing = false → t.subscriptions ≠ [] →
      connectHashes t.subscriptions ≠ [] →
      (sseConnect t).connection = some (connectHashes t.subscriptions)) ∧
    (sseUnsubscribe st (e1, c1)).subscriptions = [(e2, s2)] ∧
    (sseUnsubscribe st (e1, c1)).connection = some [s2.inboxHash] ∧
    (sseUnsubscribe (sseUnsubscribe st (e1, c1)) (e2, c2)).subscriptions = [] ∧
    (sseUnsubscribe (sseUnsubscribe st (e1, c1)) (e2, c2)).connection = none := by
  have hconn : ∀ t : SSEState, t.isClosing = false → t.subscriptions ≠ [] →
      connectHashes t.subscriptions ≠ [] →
      (sseConnect t).connection = some (connectHashes t.subscriptions) := by
    intro t ht1 ht2 ht3
    unfold sseConnect
    rw [if_neg (by simp [ht1]), if_neg ht2, if_neg ht3]
  have hget1 : getSub st.subscriptions e1 = some s1 := by
    rw [hsubs]
    simp [getSub, List.find?_cons]
  have hfil1 : st.subscriptions.filter (fun p => p.1 ≠ e1) = [(e2, s2)] := by
    rw [hsubs]
    simp [List.filter_cons, Ne.symm hne]
  have h1 : sseUnsubscribe st (e1, c1) =
      sseReconnect { st with subscriptions := [(e2, s2)] } := by
    rw [sseUnsubscribe_of_empty st (e1, c1) s1 hget1 (by simp [hs1])]
    rw [hfil1]
    simp
  have hch2 : connectHashes [(e2, s2)] = [s2.inboxHash] := by
    simp [connectHashes, List.filter_cons, hhash2]
  have h1subs : (sseUnsubscribe st (e1, c1)).subscriptions = [(e2, s2)] := by
    rw [h1, sseReconnect_subscriptions]
  have h1conn : (sseUnsubscribe st (e1, c1)).connection = some [s2.inboxHash] := by
    rw [h1]
    unfold sseReconnect
    rw [hconn (sseDisconnect { st with subscriptions := [(e2, s2)] })
      (by simp [sseDisconnect, hclosing]) (by simp [sseDisconnect])
      (by simp [sseDisconnect, hch2])]
    simp [sseDisconnect, hch2]
  have hget2 : getSub (sseUnsubscribe st (e1, c1)).subscriptions e2 = some s2 := by
    rw [h1subs]
    simp [getSub, List.find?_cons]
  have h2 : sseUnsubscribe (sseUnsubscribe st (e1, c1)) (e2, c2) =
      sseDisconnect { sseUnsubscribe st (e1, c1) with subscriptions := [] } := by
    rw [sseUnsubscribe_of_empty _ (e2, c2) s2 hget2 (by simp [hs2])]
    rw [show (sseUnsubscribe st (e1, c1)).subscriptions.filter (fun p => p.1 ≠ e2) = []
      from by rw [h1subs]; simp]
    simp
  refine ⟨hconn, h1subs, h1conn, ?_, ?_⟩
  · rw [h2]
    rfl
  · rw [h2]
    rfl

theorem stream_connection_hashes_witness :
    ((⟨[("a@x", ⟨"h1", [3]⟩), ("b@x", ⟨"h2", [4]⟩)], some ["h1", "h2"], 0, false⟩ :
        SSEState).subscriptions = [("a@x", ⟨"h1", [3]⟩), ("b@x", ⟨"h2", [4]⟩)] ∧
      ("a@x" : String) ≠ "b@x" ∧
      (⟨"h2", [4]⟩ : InboxSubscription).inboxHash ≠ "") ∧
    ((sseUnsubscribe ⟨[("a@x", ⟨"h1", [3]⟩), ("b@x", ⟨"h2", [4]⟩)],
        some ["h1", "h2"], 0, false⟩ ("a@x", 3)).subscriptions =
          [("b@x", ⟨"h2", [4]⟩)] ∧
      (sseUnsubscribe ⟨[("a@x", ⟨"h1", [3]⟩), ("b@x", ⟨"h2", [4]⟩)],
        some ["h1", "h2"], 0, false⟩ ("a@x", 3)).connection = some ["h2"] ∧
      (sseUnsubscribe (sseUnsubscribe ⟨[("a@x", ⟨"h1", [3]⟩), ("b@x", ⟨"h2", [4]⟩)],
        some ["h1", "h2"], 0, false⟩ ("a@x", 3)) ("b@x", 4)).subscriptions = [] ∧
      (sseUnsubscribe (sseUnsubscribe ⟨[("a@x", ⟨"h1", [3]⟩), ("b@x", ⟨"h2", [4]⟩)],
        some ["h1", "h2"], 0, false⟩ ("a@x", 3)) ("b@x", 4)).connection = none) :=
  have h := stream_connection_hashes
    ⟨[("a@x", ⟨"h1", [3]⟩), ("b@x", ⟨"h2", [4]⟩)], some ["h1", "h2"], 0, false⟩
    "a@x" "b@x" ⟨"h1", [3]⟩ ⟨"h2", [4]⟩ 3 4 rfl (by decide) rfl rfl (by decide) rfl
  ⟨⟨rfl, by decide, by decide⟩, h.2.1, h.2.2.1, h.2.2.2.1, h.2.2.2.2⟩

end VaultSandbox
